import Mathlib

/-!
Verification development for the spectral ocean-water simulation
(repository `water-simulation-uni-project`).

The GPU pipeline of the repository is embedded shallowly: every call that
records work on a Vulkan command buffer (`dispatch`, `copy_image`,
`copy_buffer_to_image`) becomes one `Event` in a Lean list, produced in
exactly the order the Rust source records it.  Pure host-side computations
(`generate_gaussian_noise`, `calculate_spectrum_params`, the ping-pong index
arithmetic of `run_ifft_2d`, the `time` bookkeeping) are translated to Lean
functions.  32-bit floats that only carry data (push constants, noise
samples, times) are modelled as exact rationals; float expressions whose
values are irrational (`powf`, `to_radians`) are carried symbolically by the
`F32` type, since no claim depends on their numeric value.

Two snapshots of the simulation coexist in the repository's `src` tree:
the current one (`src/simulation.rs`, `src/renderer.rs`, `src/main.rs`,
grid size 1024), embedded in namespace `WaterSim`, and an older orphaned
one (`src/render.rs`, `src/render/simulation.rs`, grid size 256, not in the
module tree of `main.rs`), embedded in namespace `RSim`.
-/

namespace WaterSim

/-- Grid side used by the current snapshot: `pub const TEXTURE_SIZE: u32 = 1024`
(src/simulation.rs line 91). -/
def TEXTURE_SIZE : Nat := 1024

/-- Fuel-driven base-2 logarithm, `log2Aux n n = ⌊log₂ n⌋` for `n > 0`.
This embeds `(TEXTURE_SIZE as f32).log2() as u32` from `run_ifft_2d`
(src/simulation.rs line 515): `f32::log2` is exact on the powers of two the
code uses, and the `as u32` cast truncates.  A structural (fuel) recursion is
used so that the definition evaluates by kernel reduction. -/
def log2Aux : Nat → Nat → Nat
  | 0, _ => 0
  | fuel + 1, n => if 2 ≤ n then log2Aux fuel (n / 2) + 1 else 0

/-- Base-2 logarithm (floor), see `log2Aux`. -/
def log2 (n : Nat) : Nat := log2Aux n n

/-- The property of being a power of two, stated so that it is decidable by
evaluation. -/
def powTwo (n : Nat) : Prop := 2 ^ log2 n = n

instance (n : Nat) : Decidable (powTwo n) := by unfold powTwo; infer_instance

/-- The storage images owned by `Simulation` (src/simulation.rs lines
143-170), one constructor per struct field of image type. -/
inductive Img where
  | noiseImage | wavesData | specHk | specH0
  | displacementMap | derivativesMap | turbulenceMap | cameraDepthMap | foamMap
  | precomputedData | buffer | dxDz | dyDxz | dyxDyz | dxxDzz
  deriving DecidableEq, Repr

/-- The compute pipelines owned by `Simulation`, one per loaded shader
module (src/simulation.rs lines 162-168). -/
inductive Pipe where
  | initSpec | conjSpec | timeSpec | fftInit | fft | textureMerger
  deriving DecidableEq, Repr

/-- Symbolic 32-bit float scalar: a rational literal, or one of the
irrational-valued float expressions appearing in the source, carried
syntactically (`f32::to_radians`, and the two `powf` formulas of
`calculate_spectrum_params`, src/simulation.rs lines 137-141). -/
inductive F32 where
  | lit (q : ℚ)
  | toRadians (deg : ℚ)
  | alphaJonswap (windSpeed fetch g : ℚ)
  | peakOmegaJonswap (windSpeed fetch g : ℚ)
  deriving DecidableEq, Repr

/-- Embeds `calculate_spectrum_params` (src/simulation.rs lines 137-141):
`alpha = 0.076 * (g*fetch/wind_speed^2).powf(-0.22)` and
`peak_omega = 22.0 * ((wind_speed*fetch)/(g*g)).powf(-0.33)`; the two
`powf` results are irrational and kept symbolic. -/
def calculate_spectrum_params (windSpeed fetch g : ℚ) : F32 × F32 :=
  (F32.alphaJonswap windSpeed fetch g, F32.peakOmegaJonswap windSpeed fetch g)

/-- Push constants of the `init_spec` shader dispatch, field for field as in
`init_spec_shader::ty::PushConstants` (src/simulation.rs lines 316-342). -/
structure InitSpecPush where
  size : Nat
  lengthScale : F32
  cutoffHigh : F32
  cutoffLow : F32
  gravityAcceleration : F32
  depth : F32
  scale1 : F32
  angle1 : F32
  spreadBlend1 : F32
  swell1 : F32
  alpha1 : F32
  peakOmega1 : F32
  gamma1 : F32
  shortWavesFade1 : F32
  scale2 : F32
  angle2 : F32
  spreadBlend2 : F32
  swell2 : F32
  alpha2 : F32
  peakOmega2 : F32
  gamma2 : F32
  shortWavesFade2 : F32
  deriving DecidableEq, Repr

/-- Push constants of each compute dispatch of the current snapshot, one
constructor per shader push-constant block. -/
inductive Push where
  | initSpec (pc : InitSpecPush)
  | fftInit (size : Nat)
  | conjSpec (size : Nat)
  | timeSpec (size : Nat) (time : ℚ)
  | fft (size stage pingPong mode : Nat)
  | merger (size : Nat) (dlt : ℚ)
  deriving DecidableEq, Repr

/-- One `WriteDescriptorSet` entry: `image_view(slot, img)` or
`image_view_sampler(slot, img)`. -/
inductive Binding where
  | imageView (slot : Nat) (img : Img)
  | imageViewSampler (slot : Nat) (img : Img)
  deriving DecidableEq, Repr

/-- One piece of work recorded on a command buffer: a compute dispatch with
its bound pipeline, descriptor bindings and push constants, an
image-to-image copy, or a staging-buffer-to-image copy. -/
inductive Event where
  | dispatch (p : Pipe) (bindings : List Binding) (pc : Push)
  | copyImage (src dst : Img)
  | copyBufferToImage (dst : Img)
  deriving DecidableEq, Repr

/-- Embeds `Simulation::run_compute_shader` (src/simulation.rs lines
256-284): binds the pipeline, descriptor set and push constants and records
exactly one dispatch. -/
def run_compute_shader (p : Pipe) (bindings : List Binding) (pc : Push) :
    List Event :=
  [Event.dispatch p bindings pc]

/-- Embeds `generate_gaussian_noise` (src/simulation.rs lines 94-106).  The
RNG is abstracted as the stream `sample : Nat → ℚ` of successive draws from
`rand_distr::Normal::new(0.0, 1.0)`; the loop pushes `size * size` cells,
each consuming two fresh draws `[real, imag, 0.0, 0.0]`, so cell `k` holds
draws number `2*k` and `2*k + 1`. -/
def generate_gaussian_noise (size : Nat) (sample : Nat → ℚ) :
    List (ℚ × ℚ × ℚ × ℚ) :=
  (List.range (size * size)).map (fun k => (sample (2 * k), sample (2 * k + 1), 0, 0))

/-- Embeds `Simulation::generate_noise_texture` (src/simulation.rs lines
636-698): generates the noise data once and records a single
staging-buffer-to-image copy into the noise image. -/
def generate_noise_texture (size : Nat) (sample : Nat → ℚ) :
    List (ℚ × ℚ × ℚ × ℚ) × List Event :=
  (generate_gaussian_noise size sample, [Event.copyBufferToImage Img.noiseImage])

/-- The mutable state of `Simulation`: the only field ever written after
construction is `pub time: f32` (src/simulation.rs line 169); the image and
pipeline handles are created once in `Simulation::new` and never replaced. -/
structure SimState where
  time : ℚ
  deriving DecidableEq, Repr

/-- Result of `Simulation::new`: the CPU-side noise data, the initial state,
and the GPU work recorded during construction. -/
structure NewResult where
  noiseData : List (ℚ × ℚ × ℚ × ℚ)
  state : SimState
  events : List Event

/-- Embeds `Simulation::new` (src/simulation.rs lines 172-254): generates the
noise texture (the only GPU work of construction) and sets `time: 0.0`. -/
def Simulation.new (sample : Nat → ℚ) : NewResult :=
  ⟨(generate_noise_texture TEXTURE_SIZE sample).1, ⟨0⟩,
    (generate_noise_texture TEXTURE_SIZE sample).2⟩

/-- The push-constant record built in `Simulation::init` (src/simulation.rs
lines 300-342), field for field.  In the source `size`, `wind_speed` and
`fetch` are fixed (`TEXTURE_SIZE`, `0.5`, `100000.0`); they are exposed as
parameters here so that the configuration claims can be stated — the body
is otherwise the literal translation of the source. -/
def init_spec_push (size : Nat) (windSpeed fetch : ℚ) : InitSpecPush :=
  ⟨size,
    F32.lit 100,                     -- lengthScale: 100.0
    F32.lit 9999,                    -- cutoffHigh: 9999.0
    F32.lit (1 / 10000),             -- cutoffLow: 0.0001
    F32.lit (981 / 100),             -- gravityAcceleration: 9.81
    F32.lit 500,                     -- depth: 500.0
    F32.lit 1,                       -- scale1: 1.0
    F32.toRadians (-(2981 / 100)),   -- angle1: (-29.81_f32).to_radians()
    F32.lit 1,                       -- spreadBlend1: 1.0
    F32.lit (198 / 1000),            -- swell1: 0.198
    (calculate_spectrum_params windSpeed fetch (981 / 100)).1,  -- alpha1
    (calculate_spectrum_params windSpeed fetch (981 / 100)).2,  -- peakOmega1
    F32.lit (33 / 10),               -- gamma1: 3.3
    F32.lit (1 / 100),               -- shortWavesFade1: 0.01
    F32.lit 0,                       -- scale2: 0.0 (band 2 disabled)
    F32.lit 0,                       -- angle2: 0.0
    F32.lit 1,                       -- spreadBlend2: 1.0
    F32.lit 1,                       -- swell2: 1.0
    F32.lit (81 / 10000),            -- alpha2: 0.0081
    F32.lit (831 / 1000),            -- peakOmega2: 0.831
    F32.lit (33 / 10),               -- gamma2: 3.3
    F32.lit (1 / 100)⟩               -- shortWavesFade2: 0.01

/-- The GPU work recorded by `Simulation::init` (src/simulation.rs lines
286-387), in source order: the `init_spec` dispatch building the directional
spectrum h0(k), the `fft_init` dispatch building the twiddle/bit-reversal
table, then (in a second command buffer) the `conj_spec` dispatch building
the conjugate spectrum. -/
def initTrace (size : Nat) (windSpeed fetch : ℚ) : List Event :=
  run_compute_shader Pipe.initSpec
      [Binding.imageView 0 Img.wavesData,
       Binding.imageView 1 Img.specHk,
       Binding.imageViewSampler 2 Img.noiseImage]
      (Push.initSpec (init_spec_push size windSpeed fetch))
    ++ run_compute_shader Pipe.fftInit
      [Binding.imageView 0 Img.precomputedData]
      (Push.fftInit size)
    ++ run_compute_shader Pipe.conjSpec
      [Binding.imageView 0 Img.specHk,
       Binding.imageView 1 Img.specH0]
      (Push.conjSpec size)

/-- Configuration errors named by the specification for initialization.
`Simulation::init` contains no validation of any kind, so no branch of the
embedding ever produces one of these constructors: the `Except` wrapper
records, faithfully to the source, that initialization is infallible with
respect to configuration. -/
inductive InitError where
  | notPowerOfTwo
  | nonPhysicalBand
  deriving DecidableEq, Repr

/-- Embeds `Simulation::init` as a fallible call.  The source body
unconditionally records the three dispatches of `initTrace` and returns; it
never checks `size` (the source hard-codes `TEXTURE_SIZE`), `wind_speed` or
`fetch`, so the result is `Except.ok` for every argument. -/
def Simulation.init (size : Nat) (windSpeed fetch : ℚ) :
    Except InitError (List Event) :=
  Except.ok (initTrace size windSpeed fetch)

/-- Descriptor bindings of every `fft` shader dispatch in `run_ifft_2d`
(src/simulation.rs lines 532-536 and the permute/scale blocks): the
precomputed table, the input image and the ping-pong buffer image. -/
def fftBindings (input buf : Img) : List Binding :=
  [Binding.imageView 0 Img.precomputedData,
   Binding.imageView 1 input,
   Binding.imageView 2 buf]

/-- One butterfly-kernel dispatch of the `fft` shader with the given stage,
ping-pong index and mode push constants. -/
def butterflyD (size stage pingPong mode : Nat) (input buf : Img) : Event :=
  Event.dispatch Pipe.fft (fftBindings input buf)
    (Push.fft size stage pingPong mode)

/-- Embeds one `for i in 0..log_size` loop of `run_ifft_2d`
(src/simulation.rs lines 525-546 and 548-569).  Arguments: current stage
index `i`, remaining iterations `fuel`, current `ping_pong` value.  Each
iteration first toggles `ping_pong ^= 1`, then records the
`run_compute_shader` dispatch for stage `i`, then records the loop body's
own extra `commands.dispatch(WORKGROUP_SIZE)` — a second dispatch with the
identical pipeline, descriptor set and push constants still bound.  Returns
the recorded events and the final `ping_pong`. -/
def fftLoop (size mode : Nat) (input buf : Img) :
    Nat → Nat → Nat → List Event × Nat
  | _, 0, pp => ([], pp)
  | i, fuel + 1, pp =>
      let pp1 := pp ^^^ 1
      let d := butterflyD size i pp1 mode input buf
      let rest := fftLoop size mode input buf (i + 1) fuel pp1
      (d :: d :: rest.1, rest.2)

/-- The horizontal (mode 2) butterfly pass of `run_ifft_2d`: `log2 size`
stages starting from `ping_pong = 0`. -/
def ifftHoriz (size : Nat) (input buf : Img) : List Event × Nat :=
  fftLoop size 2 input buf 0 (log2 size) 0

/-- The vertical (mode 3) butterfly pass of `run_ifft_2d`: `log2 size`
stages continuing from the horizontal pass's final `ping_pong`. -/
def ifftVert (size : Nat) (input buf : Img) : List Event × Nat :=
  fftLoop size 3 input buf 0 (log2 size) (ifftHoriz size input buf).2

/-- Embeds `Simulation::run_ifft_2d` (src/simulation.rs lines 504-634): the
horizontal pass, the vertical pass, the two conditional image copies
keyed on the final `ping_pong` and `output_to_input`, then the optional
permute (mode 5) and scale (mode 4) dispatches, in source order. -/
def run_ifft_2d (size : Nat) (output_to_input scale permute : Bool)
    (input buf : Img) : List Event :=
  let pp := (ifftVert size input buf).2
  (ifftHoriz size input buf).1
    ++ (ifftVert size input buf).1
    ++ (if pp == 1 && output_to_input then [Event.copyImage buf input] else [])
    ++ (if pp == 0 && !output_to_input then [Event.copyImage input buf] else [])
    ++ (if permute then
          run_compute_shader Pipe.fft (fftBindings input buf)
            (Push.fft size 0 pp 5)
        else [])
    ++ (if scale then
          run_compute_shader Pipe.fft (fftBindings input buf)
            (Push.fft size 0 pp 4)
        else [])

/-- The `time_spec` (Time Evolver) dispatch of `Simulation::run`
(src/simulation.rs lines 401-418): reads `waves_data` and `spec_h0`, writes
the four frequency-domain channels, with `time: self.time`. -/
def timeSpecD (t : ℚ) : Event :=
  Event.dispatch Pipe.timeSpec
    [Binding.imageView 0 Img.wavesData,
     Binding.imageView 1 Img.specH0,
     Binding.imageView 2 Img.dxDz,
     Binding.imageView 3 Img.dyDxz,
     Binding.imageView 4 Img.dyxDyz,
     Binding.imageView 5 Img.dxxDzz]
    (Push.timeSpec TEXTURE_SIZE t)

/-- The `texture_merger` (Field Compositor) dispatch of `Simulation::run`
(src/simulation.rs lines 475-493): writes the three output maps, reads the
four spatial channels, and — as in the source — passes `dlt: self.time`,
the absolute time cursor, as its push constant. -/
def mergerD (t : ℚ) : Event :=
  Event.dispatch Pipe.textureMerger
    [Binding.imageView 0 Img.displacementMap,
     Binding.imageView 1 Img.derivativesMap,
     Binding.imageView 2 Img.turbulenceMap,
     Binding.imageView 3 Img.dxDz,
     Binding.imageView 4 Img.dyDxz,
     Binding.imageView 5 Img.dyxDyz,
     Binding.imageView 6 Img.dxxDzz]
    (Push.merger TEXTURE_SIZE t)

/-- Embeds `Simulation::run` (src/simulation.rs lines 389-502), one
simulation step: the Time Evolver dispatch, then `run_ifft_2d` on each of
the four channels with `(output_to_input, scale, permute) =
(true, false, true)` and the shared scratch `buffer`, then the Field
Compositor dispatch.  The receiver is `&self`, so the state cannot be (and
is not) modified; it is returned unchanged. -/
def Simulation.run (s : SimState) : SimState × List Event :=
  (s,
    run_compute_shader Pipe.timeSpec
        [Binding.imageView 0 Img.wavesData,
         Binding.imageView 1 Img.specH0,
         Binding.imageView 2 Img.dxDz,
         Binding.imageView 3 Img.dyDxz,
         Binding.imageView 4 Img.dyxDyz,
         Binding.imageView 5 Img.dxxDzz]
        (Push.timeSpec TEXTURE_SIZE s.time)
      ++ run_ifft_2d TEXTURE_SIZE true false true Img.dxDz Img.buffer
      ++ run_ifft_2d TEXTURE_SIZE true false true Img.dyDxz Img.buffer
      ++ run_ifft_2d TEXTURE_SIZE true false true Img.dyxDyz Img.buffer
      ++ run_ifft_2d TEXTURE_SIZE true false true Img.dxxDzz Img.buffer
      ++ run_compute_shader Pipe.textureMerger
        [Binding.imageView 0 Img.displacementMap,
         Binding.imageView 1 Img.derivativesMap,
         Binding.imageView 2 Img.turbulenceMap,
         Binding.imageView 3 Img.dxDz,
         Binding.imageView 4 Img.dyDxz,
         Binding.imageView 5 Img.dyxDyz,
         Binding.imageView 6 Img.dxxDzz]
        (Push.merger TEXTURE_SIZE s.time))

/-- Modelled from the spec: `Renderer::run_sim`, the per-frame step driver.
It is called once per redraw from `main.rs` line 168
(`renderer.run_sim(delta_time)`) but its definition is absent from the
`src` tree (an inconsistent snapshot); per the spec the core exposes "a
`time` cursor advanced once per simulation step", so the driver advances
`time` by the frame's elapsed seconds exactly once and runs the per-step
pipeline `Simulation::run`. -/
def Renderer.run_sim (s : SimState) (dt : ℚ) : SimState × List Event :=
  let s1 : SimState := ⟨s.time + dt⟩
  (s1, (Simulation.run s1).2)

end WaterSim

namespace RSim

/-- Grid side of the older snapshot:
`pub const TEXTURE_SIZE: u32 = 256` with the source comment
"Must be power of 2 for FFT" (src/render/simulation.rs line 40). -/
def TEXTURE_SIZE : Nat := 256

/-- Storage images of the older snapshot's `Simulation`
(src/render/simulation.rs lines 61-67). -/
inductive Img where
  | specH0 | specHt | specTemp | mapDisplace | mapNormal
  deriving DecidableEq, Repr

/-- CPU-accessible uniform buffers of the older snapshot's `Simulation`:
the wind/wave parameter buffer and the time buffer. -/
inductive Buf where
  | paramBuffer | timeBuffer
  deriving DecidableEq, Repr

/-- Compute pipelines of the older snapshot's `Simulation`. -/
inductive Pipe where
  | h0Spectrum | htSpectrum
  deriving DecidableEq, Repr

/-- One `WriteDescriptorSet` entry of the older snapshot: a storage image
or a uniform buffer. -/
inductive Binding where
  | imageView (slot : Nat) (img : Img)
  | uniform (slot : Nat) (b : Buf)
  deriving DecidableEq, Repr

/-- Work recorded on a command buffer by the older snapshot: compute
dispatches and the beginning of the raster render pass. -/
inductive Event where
  | dispatch (p : Pipe) (bindings : List Binding)
  | beginRenderPass
  deriving DecidableEq, Repr

/-- Embeds `Simulation::generate_h0_spectrum` (src/render/simulation.rs
lines 152-186): one dispatch of the h0 spectrum-initializer kernel, bound
to the h0 image and the (unchanged) parameter uniform buffer.  The source
carries the comment "TODO: This should only run when params change (But for
now I am too lazy so it runs every frame)". -/
def generate_h0_spectrum : List Event :=
  [Event.dispatch Pipe.h0Spectrum
    [Binding.imageView 0 Img.specH0, Binding.uniform 1 Buf.paramBuffer]]

/-- Embeds `Simulation::update_time_spectrum` (src/render/simulation.rs
lines 188-231).  The write lock on the CPU-side time uniform buffer may
fail; the source matches on it, adds `delta` on `Ok` and silently discards
the failure on `Err`, then unconditionally dispatches the time-evolution
kernel bound to the time buffer (holding the possibly stale value).  The
lock outcome is the explicit argument `lockAcquired`; the stored buffer
content is threaded as `storedTime`.  The function is total: no error value
is returned on any path. -/
def update_time_spectrum (storedTime delta : ℚ) (lockAcquired : Bool) :
    ℚ × List Event :=
  let t1 := if lockAcquired then storedTime + delta else storedTime
  (t1,
    [Event.dispatch Pipe.htSpectrum
      [Binding.imageView 0 Img.specH0,
       Binding.imageView 1 Img.specHt,
       Binding.uniform 2 Buf.timeBuffer]])

/-- The `RenderStage` state machine of `Render` (src/render.rs lines
83-87). -/
inductive RenderStage where
  | stopped | water | needsRedraw
  deriving DecidableEq, Repr

/-- Outcome of `swapchain::acquire_next_image` as observed by
`Render::start`: success with the `suboptimal` flag, or `OutOfDate`. -/
inductive AcquireOutcome where
  | ok (suboptimal : Bool)
  | outOfDate
  deriving DecidableEq, Repr

/-- Embeds `Render::recreate_swapchain` (src/render.rs lines 626-663) at the
level of the stage machine: it first sets `NeedsRedraw`; if the window
extent is zero it returns there, otherwise it rebuilds the swapchain and
ends in `Stopped`. -/
def recreate_swapchain (extentNonzero : Bool) : RenderStage :=
  if extentNonzero then RenderStage.stopped else RenderStage.needsRedraw

/-- Embeds `Render::start` (src/render.rs lines 563-624), the beginning of
every render frame.  From `Stopped` it moves to `Water` and, when the
swapchain image is acquired and not suboptimal, records the
`generate_h0_spectrum` dispatch — on every such frame — followed by the
render pass; on acquire failure or suboptimality it recreates the swapchain
and records nothing.  From `NeedsRedraw` it recreates and stops; from any
other stage it stops. -/
def Render.start (stage : RenderStage) (acq : AcquireOutcome)
    (extentNonzero : Bool) : RenderStage × List Event :=
  match stage with
  | RenderStage.stopped =>
      match acq with
      | AcquireOutcome.outOfDate => (recreate_swapchain extentNonzero, [])
      | AcquireOutcome.ok true => (recreate_swapchain extentNonzero, [])
      | AcquireOutcome.ok false =>
          (RenderStage.water, generate_h0_spectrum ++ [Event.beginRenderPass])
  | RenderStage.needsRedraw => (RenderStage.stopped, [])
  | RenderStage.water => (RenderStage.stopped, [])

/-- Embeds the stage effect of `Render::finish` (src/render.rs lines
503-561): every arm — the submitting `Water` arm as well as the bail-out
arms — leaves `render_stage = Stopped`. -/
def Render.finish (stage : RenderStage) : RenderStage :=
  match stage with
  | _ => RenderStage.stopped

/-- Number of dispatches of the h0 Spectrum Initializer kernel in a trace. -/
def countH0 (t : List Event) : Nat :=
  t.countP fun e =>
    match e with
    | Event.dispatch Pipe.h0Spectrum _ => true
    | _ => false

end RSim

namespace WaterSim

/-- Stage indices, in recording order, of the `fft`-pipeline dispatches
whose mode push constant is `m`. -/
def stagesOf (m : Nat) (t : List Event) : List Nat :=
  t.filterMap fun e =>
    match e with
    | Event.dispatch Pipe.fft _ (Push.fft _ st _ mo) =>
        if mo = m then some st else none
    | _ => none

/-- Mode push constants, in recording order, of all `fft`-pipeline
dispatches of a trace (butterfly modes 2 and 3, permute mode 5, scale
mode 4). -/
def fftModes (t : List Event) : List Nat :=
  t.filterMap fun e =>
    match e with
    | Event.dispatch Pipe.fft _ (Push.fft _ _ _ mo) => some mo
    | _ => none

/-- The `dlt` push constants of the texture-merger (Field Compositor)
dispatches of a trace, in order. -/
def mergerDlts (t : List Event) : List ℚ :=
  t.filterMap fun e =>
    match e with
    | Event.dispatch _ _ (Push.merger _ d) => some d
    | _ => none

/-- Recognizes a Time Evolver (`time_spec`) dispatch. -/
def isTimeSpecD : Event → Bool
  | Event.dispatch Pipe.timeSpec _ _ => true
  | _ => false

/-- Recognizes a Field Compositor (`texture_merger`) dispatch. -/
def isMergerD : Event → Bool
  | Event.dispatch Pipe.textureMerger _ _ => true
  | _ => false

/-- Recognizes a staging-buffer-to-image upload (the noise generation is
the only producer of such an event). -/
def isNoiseUpload : Event → Bool
  | Event.copyBufferToImage _ => true
  | _ => false

/-- Recognizes a butterfly dispatch (mode 2 or 3) of an inverse-FFT
invocation whose input channel is `input` (scratch `Img.buffer`). -/
def isButterflyFor (input : Img) : Event → Bool
  | Event.dispatch Pipe.fft b (Push.fft _ _ _ m) =>
      decide (b = fftBindings input Img.buffer ∧ (m = 2 ∨ m = 3))
  | _ => false

/-- Recognizes the bit-reversal permutation dispatch (mode 5) of an
inverse-FFT invocation whose input channel is `input`. -/
def isPermuteFor (input : Img) : Event → Bool
  | Event.dispatch Pipe.fft b (Push.fft _ _ _ m) =>
      decide (b = fftBindings input Img.buffer ∧ m = 5)
  | _ => false

/-- The butterfly loop toggles `ping_pong` once per iteration, so the final
value is the starting value xor-ed with the parity of the iteration
count. -/
theorem fftLoop_snd (size m : Nat) (inp buf : Img) (fuel : Nat) :
    ∀ (i pp : Nat), (fftLoop size m inp buf i fuel pp).2 = pp ^^^ (fuel % 2) := by
  induction fuel with
  | zero => intro i pp; simp [fftLoop]
  | succ n ih =>
      intro i pp
      have h := ih (i + 1) (pp ^^^ 1)
      simp only [fftLoop]
      rw [h, Nat.xor_assoc]
      congr 1
      rcases Nat.mod_two_eq_zero_or_one n with hn | hn
      · have h2 : (n + 1) % 2 = 1 := by omega
        rw [hn, h2]; decide
      · have h2 : (n + 1) % 2 = 0 := by omega
        rw [hn, h2]; decide

/-- Every event recorded by the butterfly loop is a butterfly dispatch of
its own mode, input and buffer. -/
theorem fftLoop_mem (size m : Nat) (inp buf : Img) (fuel : Nat) :
    ∀ (i pp : Nat) (e : Event), e ∈ (fftLoop size m inp buf i fuel pp).1 →
      ∃ st ppv, e = butterflyD size st ppv m inp buf := by
  induction fuel with
  | zero => intro i pp e h; simp [fftLoop] at h
  | succ n ih =>
      intro i pp e h
      simp only [fftLoop, List.mem_cons] at h
      rcases h with h | h | h
      · exact ⟨i, pp ^^^ 1, h⟩
      · exact ⟨i, pp ^^^ 1, h⟩
      · exact ih (i + 1) (pp ^^^ 1) e h

/-- No image-to-image copy is recorded inside a butterfly loop. -/
theorem copyImage_not_mem_fftLoop (size m : Nat) (inp buf : Img)
    (fuel i pp : Nat) (a b : Img) :
    Event.copyImage a b ∉ (fftLoop size m inp buf i fuel pp).1 := by
  intro h
  obtain ⟨st, ppv, he⟩ := fftLoop_mem size m inp buf fuel i pp _ h
  simp [butterflyD] at he

/-- An `fft` dispatch whose mode differs from the loop's mode is not
recorded inside that butterfly loop. -/
theorem mode_not_mem_fftLoop (size m : Nat) (inp buf : Img)
    (fuel i pp : Nat) (bb : List Binding) (sz st0 pp0 mo : Nat)
    (hmo : mo ≠ m) :
    Event.dispatch Pipe.fft bb (Push.fft sz st0 pp0 mo)
      ∉ (fftLoop size m inp buf i fuel pp).1 := by
  intro h
  obtain ⟨st, ppv, he⟩ := fftLoop_mem size m inp buf fuel i pp _ h
  apply hmo
  simp only [butterflyD, Event.dispatch.injEq, Push.fft.injEq] at he
  exact he.2.2.2.2.2

/-- Stage indices of the butterfly loop with its own mode: each stage from
`i` to `i + fuel - 1` appears exactly twice, in increasing order (the
helper's dispatch and the loop body's duplicate dispatch). -/
theorem stagesOf_fftLoop (size m : Nat) (inp buf : Img) (fuel : Nat) :
    ∀ (i pp : Nat),
      stagesOf m (fftLoop size m inp buf i fuel pp).1
        = (List.range fuel).flatMap (fun j => [i + j, i + j]) := by
  induction fuel with
  | zero => intro i pp; simp [fftLoop, stagesOf]
  | succ n ih =>
      intro i pp
      have hd : stagesOf m (fftLoop size m inp buf i (n + 1) pp).1
          = i :: i :: stagesOf m (fftLoop size m inp buf (i + 1) n (pp ^^^ 1)).1 := by
        simp [fftLoop, stagesOf, butterflyD]
      rw [hd, ih]
      rw [List.range_succ_eq_map, List.flatMap_cons, List.flatMap_map]
      have hfun : (fun j : Nat => [i + 1 + j, i + 1 + j])
          = (fun j : Nat => [i + (j + 1), i + (j + 1)]) := by
        funext j
        rw [Nat.add_assoc, Nat.add_comm 1 j]
      simp [hfun]

/-- Stage indices of the butterfly loop with a different mode: none. -/
theorem stagesOf_fftLoop_ne (size m m' : Nat) (hne : m' ≠ m) (inp buf : Img)
    (fuel : Nat) :
    ∀ (i pp : Nat), stagesOf m' (fftLoop size m inp buf i fuel pp).1 = [] := by
  intro i pp
  unfold stagesOf
  rw [List.filterMap_eq_nil_iff]
  intro e he
  obtain ⟨st, ppv, rfl⟩ := fftLoop_mem size m inp buf fuel i pp e he
  simp [butterflyD, Ne.symm hne]

/-- Mode push constants of the butterfly loop: its own mode, twice per
iteration. -/
theorem fftModes_fftLoop (size m : Nat) (inp buf : Img) (fuel : Nat) :
    ∀ (i pp : Nat),
      fftModes (fftLoop size m inp buf i fuel pp).1
        = List.replicate (2 * fuel) m := by
  induction fuel with
  | zero => intro i pp; simp [fftLoop, fftModes]
  | succ n ih =>
      intro i pp
      have h2 : 2 * (n + 1) = 2 * n + 1 + 1 := by omega
      rw [h2, List.replicate_succ, List.replicate_succ]
      simp [fftLoop, fftModes, butterflyD]
      exact ih (i + 1) (pp ^^^ 1)

/-- The horizontal pass ends with `ping_pong` equal to the parity of the
stage count `log2 size`. -/
theorem ifftHoriz_snd (size : Nat) (inp buf : Img) :
    (ifftHoriz size inp buf).2 = log2 size % 2 := by
  unfold ifftHoriz
  rw [fftLoop_snd, Nat.zero_xor]

/-- After the horizontal and vertical passes — `2 * log2 size` toggles in
total — `ping_pong` is back to 0, for every size. -/
theorem ifftVert_snd (size : Nat) (inp buf : Img) :
    (ifftVert size inp buf).2 = 0 := by
  unfold ifftVert
  rw [fftLoop_snd, ifftHoriz_snd, Nat.xor_self]

/-- Normal form of `run_ifft_2d`: because the final `ping_pong` is 0, the
scratch-to-input copy branch is dead, the input-to-scratch copy fires
exactly when `output_to_input` is false, and the permute and scale
dispatches carry `ping_pong = 0`. -/
theorem run_ifft_2d_eq (size : Nat) (o sc pm : Bool) (inp buf : Img) :
    run_ifft_2d size o sc pm inp buf
      = (ifftHoriz size inp buf).1 ++ (ifftVert size inp buf).1
        ++ (if o then [] else [Event.copyImage inp buf])
        ++ (if pm then
              [Event.dispatch Pipe.fft (fftBindings inp buf)
                (Push.fft size 0 0 5)]
            else [])
        ++ (if sc then
              [Event.dispatch Pipe.fft (fftBindings inp buf)
                (Push.fft size 0 0 4)]
            else []) := by
  simp only [run_ifft_2d, ifftVert_snd, run_compute_shader]
  cases o <;> cases pm <;> cases sc <;> simp

/-- Distributes the stage-index observation over trace concatenation. -/
theorem stagesOf_append (m : Nat) (a b : List Event) :
    stagesOf m (a ++ b) = stagesOf m a ++ stagesOf m b := by
  unfold stagesOf
  exact List.filterMap_append a b _

/-- Distributes the mode observation over trace concatenation. -/
theorem fftModes_append (a b : List Event) :
    fftModes (a ++ b) = fftModes a ++ fftModes b := by
  unfold fftModes
  exact List.filterMap_append a b _

/-- Horizontal stage indices of one inverse-FFT invocation: stages 0 to
`log2 size − 1` in increasing order, each appearing exactly twice. -/
theorem stagesOf_run_ifft_horiz (size : Nat) (o sc pm : Bool) (inp buf : Img) :
    stagesOf 2 (run_ifft_2d size o sc pm inp buf)
      = (List.range (log2 size)).flatMap (fun j => [j, j]) := by
  rw [run_ifft_2d_eq]
  simp only [ifftHoriz, ifftVert, stagesOf_append]
  rw [stagesOf_fftLoop]
  rw [stagesOf_fftLoop_ne size 3 2 (by decide)]
  cases o <;> cases pm <;> cases sc <;> simp [stagesOf]

/-- Vertical stage indices of one inverse-FFT invocation: stages 0 to
`log2 size − 1` in increasing order, each appearing exactly twice. -/
theorem stagesOf_run_ifft_vert (size : Nat) (o sc pm : Bool) (inp buf : Img) :
    stagesOf 3 (run_ifft_2d size o sc pm inp buf)
      = (List.range (log2 size)).flatMap (fun j => [j, j]) := by
  rw [run_ifft_2d_eq]
  simp only [ifftHoriz, ifftVert, stagesOf_append]
  rw [stagesOf_fftLoop]
  rw [stagesOf_fftLoop_ne size 2 3 (by decide)]
  cases o <;> cases pm <;> cases sc <;> simp [stagesOf]

/-- Mode sequence of one inverse-FFT invocation: `2 * log2 size` horizontal
butterfly dispatches, then `2 * log2 size` vertical ones, then the optional
permute dispatch, then the optional scale dispatch. -/
theorem fftModes_run_ifft (size : Nat) (o sc pm : Bool) (inp buf : Img) :
    fftModes (run_ifft_2d size o sc pm inp buf)
      = List.replicate (2 * log2 size) 2 ++ List.replicate (2 * log2 size) 3
        ++ (if pm then [5] else []) ++ (if sc then [4] else []) := by
  rw [run_ifft_2d_eq]
  simp only [ifftHoriz, ifftVert, fftModes_append]
  rw [fftModes_fftLoop, fftModes_fftLoop]
  cases o <;> cases pm <;> cases sc <;> simp [fftModes]

set_option maxRecDepth 8000

/-- Characterizes the image-to-image copies of an inverse-FFT trace: the
only copy ever recorded is the input-to-scratch copy, present exactly when
`output_to_input` is false. -/
theorem copyImage_mem_run_ifft (size : Nat) (o sc pm : Bool) (inp buf : Img)
    (a b : Img) :
    (Event.copyImage a b ∈ run_ifft_2d size o sc pm inp buf)
      ↔ (o = false ∧ a = inp ∧ b = buf) := by
  rw [run_ifft_2d_eq]
  simp only [ifftHoriz, ifftVert, List.mem_append]
  constructor
  · intro h
    rcases h with ((((h | h) | h) | h) | h)
    · exact absurd h (copyImage_not_mem_fftLoop _ _ _ _ _ _ _ _ _)
    · exact absurd h (copyImage_not_mem_fftLoop _ _ _ _ _ _ _ _ _)
    · cases o <;> simp_all
    · cases pm <;> simp_all
    · cases sc <;> simp_all
  · rintro ⟨ho, rfl, rfl⟩
    subst ho
    simp

/-- Stage structure of one inverse-FFT invocation: `log2 size` horizontal
stages with indices 0, …, `log2 size − 1` in increasing order, then
`log2 size` vertical stages likewise, every stage dispatched exactly twice
(mode lists of lengths `2 * log2 size` each), followed by the optional
permute and scale dispatches. -/
def ifftStageProp (size : Nat) (o sc pm : Bool) (inp buf : Img) : Prop :=
  stagesOf 2 (run_ifft_2d size o sc pm inp buf)
      = (List.range (log2 size)).flatMap (fun j => [j, j])
  ∧ stagesOf 3 (run_ifft_2d size o sc pm inp buf)
      = (List.range (log2 size)).flatMap (fun j => [j, j])
  ∧ fftModes (run_ifft_2d size o sc pm inp buf)
      = List.replicate (2 * log2 size) 2 ++ List.replicate (2 * log2 size) 3
        ++ (if pm then [5] else []) ++ (if sc then [4] else [])

/-- Claim C1 (amended): every invocation of the 2-D inverse FFT engine
performs exactly `log2 N` horizontal butterfly stages followed by exactly
`log2 N` vertical butterfly stages, with the stage index running from 0 to
`log2 N − 1` in increasing order within each pass — but with exactly two
butterfly-kernel dispatches per stage, not one: `run_compute_shader` issues
one dispatch and the loop body then issues a duplicate dispatch with the
identical pipeline, bindings and push constants. -/
theorem ifft_stage_structure (size : Nat) (o sc pm : Bool) (inp buf : Img) :
    ifftStageProp size o sc pm inp buf :=
  ⟨stagesOf_run_ifft_horiz size o sc pm inp buf,
   stagesOf_run_ifft_vert size o sc pm inp buf,
   fftModes_run_ifft size o sc pm inp buf⟩

/-- Number of butterfly dispatches recorded for horizontal stage 0 in one
of the four inverse-FFT invocations actually issued by `Simulation::run`
(size 1024, channel `dx_dz`). -/
def horizStage0Dispatches : Nat :=
  (run_ifft_2d 1024 true false true Img.dxDz Img.buffer).countP fun e =>
    match e with
    | Event.dispatch Pipe.fft _ (Push.fft _ 0 _ 2) => true
    | _ => false

/-- Claim C1 counterexample: in the engine invocation dispatched by
`Simulation::run` for the `dx_dz` channel, horizontal stage 0 is dispatched
twice, not exactly once as the claim states (the loop body re-dispatches
the still-bound butterfly kernel). -/
theorem ifft_single_dispatch_counterexample :
    horizStage0Dispatches = 2 ∧ horizStage0Dispatches ≠ 1 :=
  ⟨rfl, by decide⟩

/-- Post-pass behaviour of the engine as invoked by `Simulation::run`
(`output_to_input = true`, `permute = true`): the result is copied back to
the input image exactly when the final ping-pong index says it ended in the
scratch buffer; the bit-reversal permute dispatch is present and, together
with the optional scale dispatch, forms the suffix of the trace (so it
comes after all butterfly stages and any copy); the scale dispatch is
present exactly when requested. -/
def ifftPostProp (size : Nat) (sc : Bool) (inp buf : Img) : Prop :=
  ((Event.copyImage buf inp ∈ run_ifft_2d size true sc true inp buf)
      ↔ (ifftVert size inp buf).2 = 1)
  ∧ Event.dispatch Pipe.fft (fftBindings inp buf)
      (Push.fft size 0 (ifftVert size inp buf).2 5)
      ∈ run_ifft_2d size true sc true inp buf
  ∧ ((Event.dispatch Pipe.fft (fftBindings inp buf)
      (Push.fft size 0 (ifftVert size inp buf).2 4)
      ∈ run_ifft_2d size true sc true inp buf) ↔ sc = true)
  ∧ ([Event.dispatch Pipe.fft (fftBindings inp buf)
        (Push.fft size 0 (ifftVert size inp buf).2 5)]
      ++ (if sc then
            [Event.dispatch Pipe.fft (fftBindings inp buf)
              (Push.fft size 0 (ifftVert size inp buf).2 4)]
          else [])).IsSuffix (run_ifft_2d size true sc true inp buf)

/-- The scale (mode 4) dispatch is absent from every inverse-FFT trace with
`scale = false`. -/
theorem scale_not_mem_run_ifft (size : Nat) (o pm : Bool) (inp buf : Img)
    (bb : List Binding) (sz st0 pp0 : Nat) :
    Event.dispatch Pipe.fft bb (Push.fft sz st0 pp0 4)
      ∉ run_ifft_2d size o false pm inp buf := by
  rw [run_ifft_2d_eq]
  simp only [ifftHoriz, ifftVert, List.mem_append]
  intro h
  rcases h with ((((h | h) | h) | h) | h)
  · exact mode_not_mem_fftLoop size 2 inp buf (log2 size) 0 0 bb sz st0 pp0 4
      (by decide) h
  · exact mode_not_mem_fftLoop size 3 inp buf (log2 size) 0 _ bb sz st0 pp0 4
      (by decide) h
  · cases o <;> simp_all
  · cases pm <;> simp_all
  · simp at h

/-- Claim C2: in every invocation of the 2-D inverse FFT engine (all of
which pass `output_to_input = true` and `permute = true`), the result is
copied back to the primary buffer iff it ended in the scratch buffer;
afterwards the bit-reversal permutation pass is applied, and the 1/N² scale
pass is applied exactly when requested. -/
theorem ifft_post_passes (size : Nat) (sc : Bool) (inp buf : Img) :
    ifftPostProp size sc inp buf := by
  unfold ifftPostProp
  rw [ifftVert_snd]
  refine ⟨?_, ?_, ?_, ?_⟩
  · rw [copyImage_mem_run_ifft]
    simp
  · rw [run_ifft_2d_eq]
    simp
  · cases sc with
    | false =>
        simp only [Bool.false_eq_true, iff_false]
        exact scale_not_mem_run_ifft size true true inp buf _ _ _ _
    | true =>
        rw [run_ifft_2d_eq]
        simp
  · rw [run_ifft_2d_eq]
    refine ⟨(ifftHoriz size inp buf).1 ++ (ifftVert size inp buf).1, ?_⟩
    cases sc <;> simp

/-- Ping-pong bookkeeping of `run_ifft_2d`: the index starts at 0, is
toggled once per butterfly stage — `2 * log2 size` times in total, an even
number — and therefore ends at 0; consequently the scratch-to-input copy
never fires when `output_to_input` is true, and the input-to-scratch copy
fires exactly when `output_to_input` is false. -/
def pingPongProp (size : Nat) (o sc pm : Bool) (inp buf : Img) : Prop :=
  (ifftVert size inp buf).2 = 0 ^^^ ((2 * log2 size) % 2)
  ∧ (ifftVert size inp buf).2 = 0
  ∧ (o = true → Event.copyImage buf inp ∉ run_ifft_2d size o sc pm inp buf)
  ∧ ((Event.copyImage inp buf ∈ run_ifft_2d size o sc pm inp buf) ↔ o = false)

/-- Claim C9: for every power-of-two size the ping-pong index is toggled an
even number (`2 * log2 N`) of times across the two passes and returns to 0
after the final stage; hence with `output_to_input = true` the
scratch-to-input copy branch is never executed, and the input-to-scratch
copy is executed exactly when `output_to_input` is false. -/
theorem ping_pong_parity (size : Nat) (o sc pm : Bool) (inp buf : Img)
    (_hpow : powTwo size) : pingPongProp size o sc pm inp buf := by
  unfold pingPongProp
  rw [ifftVert_snd]
  refine ⟨?_, rfl, ?_, ?_⟩
  · have h2 : (2 * log2 size) % 2 = 0 := by omega
    rw [h2]
    decide
  · intro ho
    subst ho
    rw [copyImage_mem_run_ifft]
    simp
  · rw [copyImage_mem_run_ifft]
    simp

/-- Claim C9 witness: the parity property at the engine's actual
configuration — size 1024 (a power of two), channel `dx_dz`, scratch
`buffer`, with the flags `Simulation::run` passes. -/
theorem ping_pong_parity_witness :
    powTwo 1024 ∧ pingPongProp 1024 true false true Img.dxDz Img.buffer :=
  ⟨by decide, ping_pong_parity 1024 true false true Img.dxDz Img.buffer (by decide)⟩

/-- Claim C3: per simulation step the driver advances the `time` cursor
exactly once, by that step's elapsed seconds; construction initializes it
to 0; and `Simulation::run` itself (a `&self` method, like `init`) leaves
the whole simulation state — in particular `time` — unchanged, so the
cursor is not modified outside the step driver. -/
theorem time_cursor_step (s : SimState) (dt : ℚ) (sample : Nat → ℚ) :
    (Renderer.run_sim s dt).1.time = s.time + dt
    ∧ (Simulation.new sample).state.time = 0
    ∧ (Simulation.run s).1 = s :=
  ⟨rfl, rfl, rfl⟩

/-- Claim C4 (code divergence): the Field Compositor's `dlt` push constant
is `self.time`, the absolute time cursor, in every step — not the step's
elapsed `dt`.  After a first step of 1/60 s, a second step of 1/60 s
invokes the compositor with `dlt = 2/60`, not `1/60`. -/
theorem merger_receives_absolute_time :
    (∀ s : SimState, mergerDlts (Simulation.run s).2 = [s.time])
    ∧ mergerDlts ((Renderer.run_sim (Renderer.run_sim ⟨0⟩ (1 / 60)).1 (1 / 60)).2)
        = [0 + 1 / 60 + 1 / 60]
    ∧ (0 + 1 / 60 + 1 / 60 : ℚ) ≠ 1 / 60 :=
  ⟨fun _ => rfl, rfl, by norm_num⟩

/-- Claim C5: every simulation step is the exact sequence — the Time
Evolver dispatch first (reading `waves_data` and h0, writing the four
frequency channels, visible in the bindings of `timeSpecD`), the inverse
FFT engine invoked exactly once per channel (one permute dispatch and
`4 * log2 N` butterfly dispatches bound to each of the four channels),
and the Field Compositor dispatch last (reading the four channels, writing
the three output maps, visible in the bindings of `mergerD`). -/
theorem step_pipeline_sequence (s : SimState) :
    ((Simulation.run s).2).head? = some (timeSpecD s.time)
    ∧ ((Simulation.run s).2).getLast? = some (mergerD s.time)
    ∧ ((Simulation.run s).2).countP isTimeSpecD = 1
    ∧ ((Simulation.run s).2).countP isMergerD = 1
    ∧ ((Simulation.run s).2).countP (isPermuteFor Img.dxDz) = 1
    ∧ ((Simulation.run s).2).countP (isPermuteFor Img.dyDxz) = 1
    ∧ ((Simulation.run s).2).countP (isPermuteFor Img.dyxDyz) = 1
    ∧ ((Simulation.run s).2).countP (isPermuteFor Img.dxxDzz) = 1
    ∧ ((Simulation.run s).2).countP (isButterflyFor Img.dxDz) = 4 * log2 TEXTURE_SIZE
    ∧ ((Simulation.run s).2).countP (isButterflyFor Img.dyDxz) = 4 * log2 TEXTURE_SIZE
    ∧ ((Simulation.run s).2).countP (isButterflyFor Img.dyxDyz) = 4 * log2 TEXTURE_SIZE
    ∧ ((Simulation.run s).2).countP (isButterflyFor Img.dxxDzz) = 4 * log2 TEXTURE_SIZE :=
  ⟨rfl, rfl, rfl, rfl, rfl, rfl, rfl, rfl, rfl, rfl, rfl, rfl⟩

/-- Claim C6 (amended): initialization performs no configuration
validation at all — the grid size is the compile-time constant
`TEXTURE_SIZE = 1024` (a power of two) and the band parameters are
hard-coded — so, viewed as a function of the size and wind parameters it
threads through, it succeeds unconditionally with the same three
dispatches. -/
theorem init_never_fails_on_configuration (size : Nat) (windSpeed fetch : ℚ) :
    Simulation.init size windSpeed fetch
        = Except.ok (initTrace size windSpeed fetch)
    ∧ (initTrace size windSpeed fetch).length = 3
    ∧ powTwo TEXTURE_SIZE :=
  ⟨rfl, rfl, by decide⟩

/-- Claim C6 counterexample: initialization does not fail on a
non-power-of-two size (3) nor on a non-physical band (zero wind speed with
nonzero fetch); both return `Except.ok`, refuting "fails fatally, at the
call that detects it". -/
theorem init_no_validation_counterexample :
    ¬ powTwo 3
    ∧ Simulation.init 3 (1 / 2) 100000
        = Except.ok (initTrace 3 (1 / 2) 100000)
    ∧ Simulation.init 1024 0 100000
        = Except.ok (initTrace 1024 0 100000) :=
  ⟨by decide, rfl, rfl⟩

/-- Collected results about the Noise Source (claim C8): the field has
exactly `size * size` cells; cell `k` holds the two consecutive
standard-normal draws number `2k` and `2k + 1` of the sampler stream in its
(real, imaginary) channels with the remaining two channels zero; distinct
cells consume disjoint draws (independence); the noise is generated during
construction — whose only GPU work is the single noise upload — and no
noise generation or upload occurs in `init` or in any simulation step. -/
def noiseProp (size : Nat) (sample : Nat → ℚ) (k : Nat) : Prop :=
  (generate_gaussian_noise size sample).length = size * size
  ∧ (generate_gaussian_noise size sample)[k]?
      = some (sample (2 * k), sample (2 * k + 1), 0, 0)
  ∧ (∀ j, j ≠ k → 2 * j ≠ 2 * k ∧ 2 * j ≠ 2 * k + 1
      ∧ 2 * j + 1 ≠ 2 * k ∧ 2 * j + 1 ≠ 2 * k + 1)
  ∧ (Simulation.new sample).events = [Event.copyBufferToImage Img.noiseImage]
  ∧ (Simulation.new sample).noiseData = generate_gaussian_noise TEXTURE_SIZE sample
  ∧ (∀ ws fetch : ℚ, ∀ e ∈ initTrace TEXTURE_SIZE ws fetch, isNoiseUpload e = false)
  ∧ (∀ s : SimState, ((Simulation.run s).2).countP isNoiseUpload = 0)

/-- Claim C8: the noise generator returns exactly `N · N` cells of
independent draw pairs in the (real, imaginary) channels with the other two
channels zero, generated once at simulation construction and never
regenerated afterwards. -/
theorem noise_generation (size : Nat) (sample : Nat → ℚ) (k : Nat)
    (_hsize : 0 < size) (_hpow : powTwo size) (hk : k < size * size) :
    noiseProp size sample k := by
  refine ⟨?_, ?_, ?_, rfl, ?_, ?_, fun s => rfl⟩
  · simp [generate_gaussian_noise]
  · simp [generate_gaussian_noise, hk]
  · intro j hj
    omega
  · simp [Simulation.new, generate_noise_texture]
  · intro ws fetch e he
    simp only [initTrace, run_compute_shader, List.mem_append,
      List.mem_singleton] at he
    rcases he with (he | he) | he <;> subst he <;> rfl

/-- Claim C8 witness: the noise properties at size 4 (a power of two) with
an explicit sampler stream, observed at cell 3. -/
theorem noise_generation_witness :
    (0 < 4 ∧ powTwo 4 ∧ 3 < 4 * 4) ∧ noiseProp 4 (fun n => (n : ℚ)) 3 :=
  ⟨⟨by decide, by decide, by decide⟩,
    noise_generation 4 (fun n => (n : ℚ)) 3 (by decide) (by decide) (by decide)⟩

end WaterSim

namespace RSim

/-- Claim C7 (code divergence): `Render::start` dispatches the h0 Spectrum
Initializer on every successfully started frame — here two consecutive
frames, with nothing writing the parameter buffer in between, record two
h0 dispatches — rather than exactly once during initialization. -/
theorem h0_dispatched_every_frame :
    countH0 (Render.start RenderStage.stopped (AcquireOutcome.ok false) true).2 = 1
    ∧ countH0
        ((Render.start RenderStage.stopped (AcquireOutcome.ok false) true).2
          ++ (Render.start
                (Render.finish
                  (Render.start RenderStage.stopped (AcquireOutcome.ok false) true).1)
                (AcquireOutcome.ok false) true).2) = 2 :=
  ⟨rfl, rfl⟩

/-- Claim C10: `update_time_spectrum` is total — it returns no error on
either lock outcome; when the write lock fails the stored time is left
stale and the time-evolution kernel is dispatched anyway with the same
bindings; when the lock succeeds the stored time increases by exactly the
`delta` argument. -/
theorem update_time_spectrum_total (storedTime delta : ℚ) :
    (update_time_spectrum storedTime delta true).1 = storedTime + delta
    ∧ (update_time_spectrum storedTime delta false).1 = storedTime
    ∧ (update_time_spectrum storedTime delta false).2
        = (update_time_spectrum storedTime delta true).2
    ∧ (update_time_spectrum storedTime delta false).2
        = [Event.dispatch Pipe.htSpectrum
            [Binding.imageView 0 Img.specH0,
             Binding.imageView 1 Img.specHt,
             Binding.uniform 2 Buf.timeBuffer]] :=
  ⟨rfl, rfl, rfl, rfl⟩

end RSim
